import Mathlib

/-!
Verification of the geometric text-selection engine of a PDF-viewer screen.

This file shallowly embeds the logic of `src/screens/PdfViewerScreen.tsx`:
the SVG lasso-path parser (`parseSvgPath`), the image-to-view coordinate
mapper (`mapCoordinates`), the bounding-box overlap computation
(`calculateOverlapArea`), the word-selection engine
(`findIntersectingBlocks`), the per-page drawn-path bookkeeping
(`handleTouchEnd` / `clearCurrentDrawing`), the OCR entry guards
(`performOCR`), and the persisted-page restoration (`loadLastViewedPage`).

JavaScript numbers are modelled as rationals (ℚ); JavaScript `null` /
`undefined` as `Option`; JavaScript falsy tests on numbers (`x || y`,
`x ? a : b`) treat both an absent field and the value 0 as falsy, which the
embedding reproduces explicitly.
-/

/-- A 2-D point (source type `Point`, PdfViewerScreen.tsx lines 40-43). -/
structure Point where
  x : ℚ
  y : ℚ
deriving DecidableEq, Repr

/-- A rectangle given as origin and extent, the shape produced both by the
frame normalization (lines 289-292) and by `mapCoordinates` (lines 225-230). -/
structure Rect where
  x : ℚ
  y : ℚ
  width : ℚ
  height : ℚ
deriving DecidableEq, Repr

/-- The on-screen layout box of the PDF view (state `viewLayout`, lines 80-85;
only the `width`/`height` fields are read by `mapCoordinates`). -/
structure ViewLayout where
  width : ℚ
  height : ℚ
deriving DecidableEq, Repr

/-- Pixel dimensions of the captured page image (state `imageSize`, line 86). -/
structure ImageSize where
  width : ℚ
  height : ℚ
deriving DecidableEq, Repr

/-! ## Path Geometry Parser (`parseSvgPath`, lines 193-216) -/

/-- Value of a digit list read as a base-10 number, as JavaScript
`parseFloat`/`parseInt` accumulate digits. -/
def digitsToNat (ds : List Char) : ℕ :=
  ds.foldl (fun a c => a * 10 + (c.toNat - 48)) 0

/-- Unsigned decimal prefix of a character list: integer digits, an optional
decimal dot and fraction digits; `none` when no digit is present (the NaN
case of JavaScript `parseFloat`). -/
def parseUnsignedFloat (cs : List Char) : Option ℚ :=
  let intDs := cs.takeWhile Char.isDigit
  let rest := cs.dropWhile Char.isDigit
  let fracDs := match rest with
    | '.' :: r => r.takeWhile Char.isDigit
    | _ => []
  if intDs.isEmpty && fracDs.isEmpty then none
  else some ((digitsToNat intDs : ℚ) + (digitsToNat fracDs : ℚ) / (10 : ℚ) ^ fracDs.length)

/-- Model of JavaScript `parseFloat` on the coordinate tokens of an SVG path:
leading whitespace, an optional sign, then the longest decimal prefix;
`none` stands for NaN. -/
def parseFloatJS (s : String) : Option ℚ :=
  match s.data.dropWhile Char.isWhitespace with
  | '-' :: r => (parseUnsignedFloat r).map (fun q => -q)
  | '+' :: r => parseUnsignedFloat r
  | cs => parseUnsignedFloat cs

/-- Separator class of the split regex on line 195 (whitespace or comma). -/
def isPathSep (c : Char) : Bool := c.isWhitespace || c == ','

/-- Both-ends whitespace trim of `pathString.trim()` (line 195). -/
def trimChars (cs : List Char) : List Char :=
  ((cs.dropWhile Char.isWhitespace).reverse.dropWhile Char.isWhitespace).reverse

/-- Split on runs of separators, as `split(/[\s,]+/)` does: a separator run
ends the current token; a leading or trailing run contributes an empty
token, interior runs do not. The flag records whether the previous
character was a separator. -/
def splitTokensAux : List Char → List Char → Bool → List (List Char)
  | [], acc, _ => [acc.reverse]
  | c :: rest, acc, prevSep =>
    if isPathSep c then
      if prevSep then splitTokensAux rest acc true
      else acc.reverse :: splitTokensAux rest [] true
    else splitTokensAux rest (c :: acc) false

/-- Tokens of `pathString.trim().split(/[\s,]+/)` (line 195). -/
def stringTokens (s : String) : List String :=
  (splitTokensAux (trimChars s.data) [] false).map String.mk

/-- The scan of lines 197-213: an `M` or `L` token followed by at least two
tokens consumes them as an x/y pair, pushing a point when both parse as
numbers; an `M`/`L` with fewer than two following tokens, and any other
token, is skipped. -/
def parsePoints : List String → List Point
  | p :: x :: y :: rest =>
    if p = "M" ∨ p = "L" then
      match parseFloatJS x, parseFloatJS y with
      | some xv, some yv => ⟨xv, yv⟩ :: parsePoints rest
      | _, _ => parsePoints rest
    else parsePoints (x :: y :: rest)
  | _ => []

/-- Source `parseSvgPath` (lines 193-216): SVG move/line command string to
ordered point list. -/
def parseSvgPath (pathString : String) : List Point :=
  parsePoints (stringTokens pathString)

/-! ## Coordinate Mapper (`mapCoordinates`, lines 219-231) -/

/-- Source `mapCoordinates`: independent X and Y scale factors from image
pixel space to view space, applied to origin and extent. -/
def mapCoordinates (viewLayout : ViewLayout) (imageSize : ImageSize)
    (x y width height : ℚ) : Rect :=
  let scaleX := viewLayout.width / imageSize.width
  let scaleY := viewLayout.height / imageSize.height
  ⟨x * scaleX, y * scaleY, width * scaleX, height * scaleY⟩

/-! ## OCR data model and frame normalization (lines 287-292) -/

/-- The duck-typed frame object of an ML Kit text element: any of the fields
may be present or absent (source reads it as `frame as any`, lines 288-292). -/
structure Frame where
  left : Option ℚ
  top : Option ℚ
  fx : Option ℚ
  fy : Option ℚ
  width : Option ℚ
  height : Option ℚ
  right : Option ℚ
  bottom : Option ℚ
deriving DecidableEq, Repr

/-- JavaScript `v || fallback` on a possibly absent number: an absent field
and the value 0 are both falsy. -/
def jsNumOr (v : Option ℚ) (fallback : ℚ) : ℚ :=
  match v with
  | some q => if q = 0 then fallback else q
  | none => fallback

/-- JavaScript `v ? v - x : 0` on a possibly absent number (the
`frame.right ? frame.right - x : 0` fallback of lines 291-292). -/
def jsEdgeMinus (v : Option ℚ) (x : ℚ) : ℚ :=
  match v with
  | some r => if r = 0 then 0 else r - x
  | none => 0

/-- The frame normalization of lines 289-292:
`x = frame.left || frame.x || 0`, `y = frame.top || frame.y || 0`,
`width = frame.width || (frame.right ? frame.right - x : 0)`,
`height = frame.height || (frame.bottom ? frame.bottom - y : 0)`. -/
def normalizeFrame (f : Frame) : Rect :=
  let x := jsNumOr f.left (jsNumOr f.fx 0)
  let y := jsNumOr f.top (jsNumOr f.fy 0)
  let width := jsNumOr f.width (jsEdgeMinus f.right x)
  let height := jsNumOr f.height (jsEdgeMinus f.bottom y)
  ⟨x, y, width, height⟩

/-- An OCR word (`TextElement`): its text and its pixel-space frame
(absent when the recognizer supplies none, line 287's guard). -/
structure TextElement where
  text : String
  frame : Option Frame
deriving DecidableEq, Repr

/-- An OCR text line: its ordered words. -/
structure TextLine where
  elements : List TextElement
deriving DecidableEq, Repr

/-- An OCR text block: its ordered lines. -/
structure TextBlock where
  lines : List TextLine
deriving DecidableEq, Repr

/-- The recognizer output for one page: its ordered blocks. -/
structure RecognitionResult where
  blocks : List TextBlock
deriving DecidableEq, Repr

/-! ## Overlap Selection Engine (`findIntersectingBlocks`, lines 234-330) -/

/-- JavaScript `Math.min(...)` over a list of numbers (nonempty at every
call site of the engine). -/
def listMin (l : List ℚ) : ℚ :=
  match l with
  | [] => 0
  | a :: rest => rest.foldl min a

/-- JavaScript `Math.max(...)` over a list of numbers. -/
def listMax (l : List ℚ) : ℚ :=
  match l with
  | [] => 0
  | a :: rest => rest.foldl max a

/-- Source `calculateOverlapArea` (lines 238-274): bounding boxes of the two
point lists, their axis-aligned intersection, 0 when the boxes do not
overlap, else intersection area over word area times 100. -/
def calculateOverlapArea (wordPoints pathPoints : List Point) : ℚ :=
  let pathMinX := listMin (pathPoints.map Point.x)
  let pathMaxX := listMax (pathPoints.map Point.x)
  let pathMinY := listMin (pathPoints.map Point.y)
  let pathMaxY := listMax (pathPoints.map Point.y)
  let wordMinX := listMin (wordPoints.map Point.x)
  let wordMaxX := listMax (wordPoints.map Point.x)
  let wordMinY := listMin (wordPoints.map Point.y)
  let wordMaxY := listMax (wordPoints.map Point.y)
  let overlapMinX := max pathMinX wordMinX
  let overlapMaxX := min pathMaxX wordMaxX
  let overlapMinY := max pathMinY wordMinY
  let overlapMaxY := min pathMaxY wordMaxY
  if overlapMaxX < overlapMinX ∨ overlapMaxY < overlapMinY then 0
  else
    ((overlapMaxX - overlapMinX) * (overlapMaxY - overlapMinY)) /
      ((wordMaxX - wordMinX) * (wordMaxY - wordMinY)) * 100

/-- The minimum overlap percentage required for selection
(`OVERLAP_THRESHOLD`, line 282). -/
def OVERLAP_THRESHOLD : ℚ := 40

/-- The word's corner points computed from its mapped rectangle
(lines 298-303). -/
def cornerPoints (m : Rect) : List Point :=
  [⟨m.x, m.y⟩, ⟨m.x + m.width, m.y⟩, ⟨m.x, m.y + m.height⟩,
    ⟨m.x + m.width, m.y + m.height⟩]

/-- The mapped view-space rectangle of a frame: normalization (lines 289-292)
followed by `mapCoordinates` (line 295). -/
def mappedRectOf (vl : ViewLayout) (isz : ImageSize) (f : Frame) : Rect :=
  let n := normalizeFrame f
  mapCoordinates vl isz n.x n.y n.width n.height

/-- The per-word decision of lines 287-311: a word with no frame is skipped;
otherwise it is selected when its overlap percentage reaches the threshold
(`overlapPercentage >= OVERLAP_THRESHOLD`, line 309). -/
def elementSelected (vl : ViewLayout) (isz : ImageSize) (pathPoints : List Point)
    (el : TextElement) : Bool :=
  match el.frame with
  | none => false
  | some f =>
    decide (OVERLAP_THRESHOLD ≤
      calculateOverlapArea (cornerPoints (mappedRectOf vl isz f)) pathPoints)

/-- The innermost loop of lines 286-313: the words of one line, in element
index order, keeping the `(blockIndex, lineIndex, elementIndex)` of every
selected word. -/
def selectInLine (vl : ViewLayout) (isz : ImageSize) (pathPoints : List Point)
    (bi li : ℕ) (ln : TextLine) : List (ℕ × ℕ × ℕ) :=
  ln.elements.enum.filterMap fun ee =>
    if elementSelected vl isz pathPoints ee.2 then some (bi, li, ee.1) else none

/-- The middle loop of lines 285-314: the lines of one block, in line index
order. -/
def selectInBlock (vl : ViewLayout) (isz : ImageSize) (pathPoints : List Point)
    (bi : ℕ) (blk : TextBlock) : List (ℕ × ℕ × ℕ) :=
  blk.lines.enum.flatMap fun ll => selectInLine vl isz pathPoints bi ll.1 ll.2

/-- The triple-nested traversal of lines 284-315: blocks, lines and elements
in index order, pushing the `(blockIndex, lineIndex, elementIndex)` of every
selected word. -/
def computeSelectedElements (vl : ViewLayout) (isz : ImageSize)
    (r : RecognitionResult) (pathPoints : List Point) : List (ℕ × ℕ × ℕ) :=
  r.blocks.enum.flatMap fun bb => selectInBlock vl isz pathPoints bb.1 bb.2

/-- The text lookup of line 323:
`ocrResult.blocks[blockIndex].lines?.[lineIndex].elements?.[elementIndex].text || ""`. -/
def lookupElementText (r : RecognitionResult) (bi li ei : ℕ) : String :=
  match r.blocks[bi]? with
  | none => ""
  | some blk =>
    match blk.lines[li]? with
    | none => ""
    | some ln =>
      match ln.elements[ei]? with
      | none => ""
      | some el => el.text

/-- JavaScript `Array.prototype.join(" ")` (line 327). -/
def joinSpace : List String → String
  | [] => ""
  | [t] => t
  | t :: rest => t ++ " " ++ joinSpace rest

/-- The selection state the engine may write: the highlighted element set
(`intersectingElements`) and the displayed text (`selectedText`). -/
structure SelState where
  intersectingElements : List (ℕ × ℕ × ℕ)
  selectedText : Option String
deriving DecidableEq, Repr

/-- Source `findIntersectingBlocks` (lines 234-330) as a state transformer:
no OCR result or fewer than 2 parsed lasso points returns the state
untouched; otherwise the selected triples replace `intersectingElements`,
and when at least one selected word has nonempty text, their texts joined
with single spaces replace `selectedText`. -/
def findIntersectingBlocks (vl : ViewLayout) (isz : ImageSize)
    (ocrResult : Option RecognitionResult) (pathString : String)
    (st : SelState) : SelState :=
  match ocrResult with
  | none => st
  | some r =>
    let pathPoints := parseSvgPath pathString
    if pathPoints.length < 2 then st
    else
      let elements := computeSelectedElements vl isz r pathPoints
      let st1 : SelState := { intersectingElements := elements,
                              selectedText := st.selectedText }
      if 0 < elements.length then
        let selectedTexts :=
          (elements.map fun t => lookupElementText r t.1 t.2.1 t.2.2).filter
            fun t => decide (0 < t.length)
        if 0 < selectedTexts.length then
          { st1 with selectedText := some (joinSpace selectedTexts) }
        else st1
      else st1

/-! ## Per-page lasso bookkeeping (`handleTouchEnd` lines 155-189,
`clearCurrentDrawing` lines 452-459) -/

/-- A finalized drawn path with its page (source type `DrawPath`,
lines 34-37). -/
structure DrawPath where
  path : String
  page : ℕ
deriving DecidableEq, Repr

/-- The paths update of `handleTouchEnd` (lines 155-183): while drawing is
enabled and a stroke is in progress, a nonempty current path replaces every
path stored for the current page and is appended; otherwise the stored paths
are unchanged. -/
def handleTouchEndPaths (isDrawingEnabled isDrawing : Bool) (currentPath : String)
    (currentPage : ℕ) (prevPaths : List DrawPath) : List DrawPath :=
  if isDrawingEnabled && isDrawing && !(currentPath == "") then
    prevPaths.filter (fun p => p.page != currentPage) ++ [⟨currentPath, currentPage⟩]
  else prevPaths

/-- The paths update of `clearCurrentDrawing` (lines 452-459): keep paths on
other pages, remove paths on the current page. -/
def clearCurrentDrawingPaths (currentPage : ℕ) (prevPaths : List DrawPath) :
    List DrawPath :=
  prevPaths.filter (fun p => p.page != currentPage)

/-- The at-most-one-lasso-per-page invariant on the stored path list. -/
def atMostOnePathPerPage (ps : List DrawPath) : Prop :=
  ∀ pg : ℕ, (ps.filter (fun p => p.page == pg)).length ≤ 1

/-! ## OCR entry guards (`performOCR`, lines 333-346) -/

/-- The state read by the entry guards of `performOCR`: the analyzed-pages
cache, the busy flag, the lasso-mode flag (whose being on forces
re-analysis) and the current page. -/
structure OCRGuardState where
  analyzedPages : List ℕ
  isProcessing : Bool
  isDrawingEnabled : Bool
  currentPage : ℕ
deriving DecidableEq, Repr

/-- The entry of source `performOCR` (lines 333-346): a page already in
`analyzedPages` with drawing mode off is a no-op (line 335), a running cycle
(`isProcessing`) is a no-op (line 340); otherwise the cycle starts and
`isProcessing` is set (line 346). `none` models the early `return`. -/
def performOCR (st : OCRGuardState) : Option OCRGuardState :=
  if st.analyzedPages.contains st.currentPage && !st.isDrawingEnabled then none
  else if st.isProcessing then none
  else some { st with isProcessing := true }

/-! ## Persisted-page restoration (`loadLastViewedPage`, lines 493-514) -/

/-- Model of JavaScript `parseInt(s, 10)`: leading whitespace, an optional
sign, then the longest digit prefix; `none` stands for NaN. -/
def parseIntJS (s : String) : Option ℤ :=
  match s.data.dropWhile Char.isWhitespace with
  | '-' :: r =>
    let ds := r.takeWhile Char.isDigit
    if ds.isEmpty then none else some (-(digitsToNat ds : ℤ))
  | '+' :: r =>
    let ds := r.takeWhile Char.isDigit
    if ds.isEmpty then none else some ((digitsToNat ds : ℤ))
  | cs =>
    let ds := cs.takeWhile Char.isDigit
    if ds.isEmpty then none else some ((digitsToNat ds : ℤ))

/-- The page state touched by restoration: `currentPage` and `initialPage`
(both initialized to 1 on lines 54-55). The number is optional so that the
NaN result of `parseInt` stays representable. -/
structure PageRestoreState where
  currentPage : Option ℤ
  initialPage : Option ℤ
deriving DecidableEq, Repr

/-- Source `loadLastViewedPage` (lines 493-514): restoration runs only when
a stored path exists and equals the path being opened and the stored page
string is present and truthy (nonempty); it then sets both the current and
the initial page to the parsed stored page. In every other case the state
is untouched. -/
def loadLastViewedPage (savedPdfPath lastViewedPage : Option String)
    (pdfPath : String) (st : PageRestoreState) : PageRestoreState :=
  match savedPdfPath, lastViewedPage with
  | some sp, some lv =>
    if sp = pdfPath ∧ lv ≠ "" then
      { currentPage := parseIntJS lv, initialPage := parseIntJS lv }
    else st
  | _, _ => st

/-! ## Specification-side definitions

These follow the words of the specification (spec sections 4.2 and 4.3), to
be compared with the source-derived definitions above. -/

/-- An axis-aligned bounding box given by its extremes (spec section 4.3
steps 2-3). -/
structure BBox where
  minX : ℚ
  maxX : ℚ
  minY : ℚ
  maxY : ℚ
deriving DecidableEq, Repr

/-- Spec section 4.3 step 3: the lasso's bounding box as min/max over all
its points. -/
def lassoBoundingBox (pts : List Point) : BBox :=
  ⟨listMin (pts.map Point.x), listMax (pts.map Point.x),
    listMin (pts.map Point.y), listMax (pts.map Point.y)⟩

/-- Spec section 4.3 step 2: the axis-aligned bounding box of the word's
mapped rectangle (the box spanned by its corners). -/
def specWordBox (m : Rect) : BBox :=
  ⟨min m.x (m.x + m.width), max m.x (m.x + m.width),
    min m.y (m.y + m.height), max m.y (m.y + m.height)⟩

/-- Spec section 4.3 step 4: the two boxes fail to intersect when the
intersection rectangle has negative width or height. -/
def boxesDisjoint (lasso word : BBox) : Prop :=
  min lasso.maxX word.maxX < max lasso.minX word.minX ∨
    min lasso.maxY word.maxY < max lasso.minY word.minY

instance (lasso word : BBox) : Decidable (boxesDisjoint lasso word) := by
  unfold boxesDisjoint; infer_instance

/-- Area of a bounding box. -/
def boxArea (b : BBox) : ℚ := (b.maxX - b.minX) * (b.maxY - b.minY)

/-- Spec section 4.3 steps 4-5: `overlapPercentage = (intersectionArea /
wordArea) * 100`, and 0 when the boxes do not intersect. -/
def specOverlapPercentage (word lasso : BBox) : ℚ :=
  if boxesDisjoint lasso word then 0
  else
    ((min lasso.maxX word.maxX - max lasso.minX word.minX) *
      (min lasso.maxY word.maxY - max lasso.minY word.minY)) / boxArea word * 100

/-- A frame carrying the left/top/width/height encoding of a rectangle
(spec section 3, first encoding). -/
def frameLTWH (l t w h : ℚ) : Frame :=
  ⟨some l, some t, none, none, some w, some h, none, none⟩

/-- A frame carrying the left/top/right/bottom encoding of a rectangle
(spec section 3, second encoding: width = right - left,
height = bottom - top). -/
def frameLTRB (l t r b : ℚ) : Frame :=
  ⟨some l, some t, none, none, none, none, some r, some b⟩

/-! ## Helper lemmas -/

/-- Strict lexicographic order on `(blockIndex, lineIndex, elementIndex)`
triples: the reading order of the OCR hierarchy. -/
def tripleLt (a b : ℕ × ℕ × ℕ) : Prop :=
  a.1 < b.1 ∨ (a.1 = b.1 ∧ (a.2.1 < b.2.1 ∨ (a.2.1 = b.2.1 ∧ a.2.2 < b.2.2)))

theorem listMin_pair_alt (a b : ℚ) : listMin [a, b, a, b] = min a b := by
  simp only [listMin, List.foldl, min_def]
  split_ifs <;> first | rfl | linarith

theorem listMax_pair_alt (a b : ℚ) : listMax [a, b, a, b] = max a b := by
  simp only [listMax, List.foldl, max_def]
  split_ifs <;> first | rfl | linarith

theorem listMin_pair_rep (a b : ℚ) : listMin [a, a, b, b] = min a b := by
  simp only [listMin, List.foldl, min_def]
  split_ifs <;> first | rfl | linarith

theorem listMax_pair_rep (a b : ℚ) : listMax [a, a, b, b] = max a b := by
  simp only [listMax, List.foldl, max_def]
  split_ifs <;> first | rfl | linarith

theorem cornerPoints_map_x (m : Rect) :
    (cornerPoints m).map Point.x = [m.x, m.x + m.width, m.x, m.x + m.width] := rfl

theorem cornerPoints_map_y (m : Rect) :
    (cornerPoints m).map Point.y = [m.y, m.y, m.y + m.height, m.y + m.height] := rfl

/-- The code's overlap computation on a mapped rectangle's corner list equals
the specification formula on the two bounding boxes. -/
theorem calculateOverlapArea_corners (m : Rect) (pts : List Point) :
    calculateOverlapArea (cornerPoints m) pts =
      specOverlapPercentage (specWordBox m) (lassoBoundingBox pts) := by
  unfold calculateOverlapArea specOverlapPercentage boxesDisjoint lassoBoundingBox
    specWordBox boxArea
  rw [cornerPoints_map_x, cornerPoints_map_y, listMin_pair_alt, listMax_pair_alt,
    listMin_pair_rep, listMax_pair_rep]

/-- The per-word decision is exactly the spec threshold test on the mapped
word box. -/
theorem elementSelected_iff_spec (vl : ViewLayout) (isz : ImageSize)
    (pts : List Point) (el : TextElement) (f : Frame) (hf : el.frame = some f) :
    elementSelected vl isz pts el = true ↔
      40 ≤ specOverlapPercentage (specWordBox (mappedRectOf vl isz f))
        (lassoBoundingBox pts) := by
  simp [elementSelected, hf, OVERLAP_THRESHOLD, calculateOverlapArea_corners]

theorem mem_selectInLine_iff {vl : ViewLayout} {isz : ImageSize}
    {pts : List Point} {bi li b l e : ℕ} {ln : TextLine} :
    (b, l, e) ∈ selectInLine vl isz pts bi li ln ↔
      b = bi ∧ l = li ∧
        ∃ el, ln.elements[e]? = some el ∧ elementSelected vl isz pts el = true := by
  unfold selectInLine
  rw [List.mem_filterMap]
  constructor
  · rintro ⟨⟨i, el⟩, hmem, heq⟩
    split at heq
    · rename_i hsel
      obtain ⟨rfl, rfl, rfl⟩ :
          b = bi ∧ l = li ∧ e = i := by
        have := heq
        simp only [Option.some.injEq, Prod.mk.injEq] at this
        exact ⟨this.1.symm, this.2.1.symm, this.2.2.symm⟩
      refine ⟨rfl, rfl, el, ?_, hsel⟩
      exact List.mk_mem_enum_iff_getElem?.mp hmem
    · exact absurd heq (by simp)
  · rintro ⟨rfl, rfl, el, hget, hsel⟩
    exact ⟨(e, el), List.mk_mem_enum_iff_getElem?.mpr hget, by simp [hsel]⟩

theorem mem_selectInBlock_iff {vl : ViewLayout} {isz : ImageSize}
    {pts : List Point} {bi b l e : ℕ} {blk : TextBlock} :
    (b, l, e) ∈ selectInBlock vl isz pts bi blk ↔
      b = bi ∧ ∃ ln, blk.lines[l]? = some ln ∧
        ∃ el, ln.elements[e]? = some el ∧ elementSelected vl isz pts el = true := by
  unfold selectInBlock
  rw [List.mem_flatMap]
  constructor
  · rintro ⟨⟨i, ln⟩, hmem, hsel⟩
    obtain ⟨rfl, rfl, hrest⟩ := mem_selectInLine_iff.mp hsel
    exact ⟨rfl, ln, List.mk_mem_enum_iff_getElem?.mp hmem, hrest⟩
  · rintro ⟨rfl, ln, hget, hrest⟩
    exact ⟨(l, ln), List.mk_mem_enum_iff_getElem?.mpr hget,
      mem_selectInLine_iff.mpr ⟨rfl, rfl, hrest⟩⟩

theorem mem_computeSelectedElements_iff {vl : ViewLayout} {isz : ImageSize}
    {pts : List Point} {b l e : ℕ} {r : RecognitionResult} :
    (b, l, e) ∈ computeSelectedElements vl isz r pts ↔
      ∃ blk, r.blocks[b]? = some blk ∧ ∃ ln, blk.lines[l]? = some ln ∧
        ∃ el, ln.elements[e]? = some el ∧ elementSelected vl isz pts el = true := by
  unfold computeSelectedElements
  rw [List.mem_flatMap]
  constructor
  · rintro ⟨⟨i, blk⟩, hmem, hsel⟩
    obtain ⟨rfl, hrest⟩ := mem_selectInBlock_iff.mp hsel
    exact ⟨blk, List.mk_mem_enum_iff_getElem?.mp hmem, hrest⟩
  · rintro ⟨blk, hget, hrest⟩
    exact ⟨(b, blk), List.mk_mem_enum_iff_getElem?.mpr hget,
      mem_selectInBlock_iff.mpr ⟨rfl, hrest⟩⟩

theorem pairwise_fst_lt_enum {α : Type} (l : List α) :
    l.enum.Pairwise (fun a b => a.1 < b.1) := by
  have h := List.pairwise_lt_range l.length
  rw [← List.enum_map_fst l, List.pairwise_map] at h
  exact h

theorem pairwise_selectInLine (vl : ViewLayout) (isz : ImageSize)
    (pts : List Point) (bi li : ℕ) (ln : TextLine) :
    (selectInLine vl isz pts bi li ln).Pairwise tripleLt := by
  unfold selectInLine
  rw [List.pairwise_filterMap]
  refine (pairwise_fst_lt_enum _).imp ?_
  intro a b hab x hx y hy
  split at hx
  · split at hy
    · simp only [Option.mem_some_iff] at hx hy
      subst hx; subst hy
      exact Or.inr ⟨rfl, Or.inr ⟨rfl, hab⟩⟩
    · simp at hy
  · simp at hx

theorem pairwise_selectInBlock (vl : ViewLayout) (isz : ImageSize)
    (pts : List Point) (bi : ℕ) (blk : TextBlock) :
    (selectInBlock vl isz pts bi blk).Pairwise tripleLt := by
  unfold selectInBlock
  rw [List.pairwise_flatMap]
  refine ⟨fun ll _ => pairwise_selectInLine vl isz pts bi ll.1 ll.2, ?_⟩
  refine (pairwise_fst_lt_enum _).imp ?_
  intro a b hab x hx y hy
  obtain ⟨xb, xl, xe⟩ := x
  obtain ⟨yb, yl, ye⟩ := y
  obtain ⟨rfl, rfl, -⟩ := mem_selectInLine_iff.mp hx
  obtain ⟨rfl, rfl, -⟩ := mem_selectInLine_iff.mp hy
  exact Or.inr ⟨rfl, Or.inl hab⟩

theorem pairwise_computeSelectedElements (vl : ViewLayout) (isz : ImageSize)
    (r : RecognitionResult) (pts : List Point) :
    (computeSelectedElements vl isz r pts).Pairwise tripleLt := by
  unfold computeSelectedElements
  rw [List.pairwise_flatMap]
  refine ⟨fun bb _ => pairwise_selectInBlock vl isz pts bb.1 bb.2, ?_⟩
  refine (pairwise_fst_lt_enum _).imp ?_
  intro a b hab x hx y hy
  obtain ⟨xb, xl, xe⟩ := x
  obtain ⟨yb, yl, ye⟩ := y
  obtain ⟨rfl, -⟩ := mem_selectInBlock_iff.mp hx
  obtain ⟨rfl, -⟩ := mem_selectInBlock_iff.mp hy
  exact Or.inl hab

theorem joinSpace_length_pos :
    ∀ ts : List String, ts ≠ [] → (∀ t ∈ ts, 0 < t.length) →
      0 < (joinSpace ts).length
  | [], h, _ => absurd rfl h
  | [t], _, hall => by simpa [joinSpace] using hall t (by simp)
  | t :: u :: rest, _, hall => by
    have := hall t (by simp)
    simp only [joinSpace, String.length_append]
    omega

/-! ## Claim theorems -/

/-- C1: for every OCR word (TextElement) with a frame and every lasso point
list with at least 2 points, the engine selects the word if and only if the
spec formula — area of the axis-aligned intersection of the word's mapped
bounding box and the lasso's bounding box, divided by the word's area,
times 100 — is at least 40; and when the two boxes do not intersect the
code's overlap value is 0. In particular exactly 40 percent is selected and
anything strictly below is not. -/
theorem selection_iff_overlap_ge_threshold
    (vl : ViewLayout) (isz : ImageSize) (r : RecognitionResult) (pts : List Point)
    (b l e : ℕ) (blk : TextBlock) (ln : TextLine) (el : TextElement) (f : Frame)
    (h2 : 2 ≤ pts.length)
    (hb : r.blocks[b]? = some blk) (hl : blk.lines[l]? = some ln)
    (he : ln.elements[e]? = some el) (hf : el.frame = some f) :
    ((b, l, e) ∈ computeSelectedElements vl isz r pts ↔
      40 ≤ specOverlapPercentage (specWordBox (mappedRectOf vl isz f))
        (lassoBoundingBox pts)) ∧
    (boxesDisjoint (lassoBoundingBox pts) (specWordBox (mappedRectOf vl isz f)) →
      calculateOverlapArea (cornerPoints (mappedRectOf vl isz f)) pts = 0) := by
  constructor
  · rw [mem_computeSelectedElements_iff]
    constructor
    · rintro ⟨blk', hb', ln', hl', el', he', hsel⟩
      rw [hb'] at hb; injection hb with hb; subst hb
      rw [hl'] at hl; injection hl with hl; subst hl
      rw [he'] at he; injection he with he; subst he
      exact (elementSelected_iff_spec vl isz pts _ f hf).mp hsel
    · intro hspec
      exact ⟨blk, hb, ln, hl, el, he,
        (elementSelected_iff_spec vl isz pts el f hf).mpr hspec⟩
  · intro hdisj
    rw [calculateOverlapArea_corners]
    unfold specOverlapPercentage
    rw [if_pos hdisj]

/-- C1 witness: with view equal to image (scale 1), a 10 by 10 word and a
lasso box covering its left 4 by 10 strip overlaps exactly 40 percent and is
selected; shrinking the strip to 3.9 by 10 (39 percent) deselects it. -/
theorem selection_iff_overlap_ge_threshold_witness :
    (0, 0, 0) ∈ computeSelectedElements ⟨100, 100⟩ ⟨100, 100⟩
      ⟨[⟨[⟨[⟨"Hello", some (frameLTWH 0 0 10 10)⟩]⟩]⟩]⟩ [⟨0, 0⟩, ⟨4, 10⟩] ∧
    (0, 0, 0) ∉ computeSelectedElements ⟨100, 100⟩ ⟨100, 100⟩
      ⟨[⟨[⟨[⟨"Hello", some (frameLTWH 0 0 10 10)⟩]⟩]⟩]⟩ [⟨0, 0⟩, ⟨39/10, 10⟩] := by
  constructor
  · exact (selection_iff_overlap_ge_threshold ⟨100, 100⟩ ⟨100, 100⟩
      ⟨[⟨[⟨[⟨"Hello", some (frameLTWH 0 0 10 10)⟩]⟩]⟩]⟩ [⟨0, 0⟩, ⟨4, 10⟩]
      0 0 0 ⟨[⟨[⟨"Hello", some (frameLTWH 0 0 10 10)⟩]⟩]⟩
      ⟨[⟨"Hello", some (frameLTWH 0 0 10 10)⟩]⟩ ⟨"Hello", some (frameLTWH 0 0 10 10)⟩
      (frameLTWH 0 0 10 10) (by decide) rfl rfl rfl rfl).1.mpr
      (by with_unfolding_all decide)
  · intro hmem
    have h := (selection_iff_overlap_ge_threshold ⟨100, 100⟩ ⟨100, 100⟩
      ⟨[⟨[⟨[⟨"Hello", some (frameLTWH 0 0 10 10)⟩]⟩]⟩]⟩ [⟨0, 0⟩, ⟨39/10, 10⟩]
      0 0 0 ⟨[⟨[⟨"Hello", some (frameLTWH 0 0 10 10)⟩]⟩]⟩
      ⟨[⟨"Hello", some (frameLTWH 0 0 10 10)⟩]⟩ ⟨"Hello", some (frameLTWH 0 0 10 10)⟩
      (frameLTWH 0 0 10 10) (by decide) rfl rfl rfl rfl).1.mp hmem
    revert h
    with_unfolding_all decide

/-- C4: the Coordinate Mapper scales the two axes independently by
viewWidth/imageWidth and viewHeight/imageHeight; with viewWidth twice the
image width and viewHeight equal to the image height, only x and width are
doubled while y and height are unchanged, for any rectangle. -/
theorem mapCoordinates_independent_scales (vl : ViewLayout) (isz : ImageSize)
    (x y w h : ℚ) (hw : 0 < isz.width) (hh : 0 < isz.height) :
    mapCoordinates vl isz x y w h =
      ⟨x * (vl.width / isz.width), y * (vl.height / isz.height),
        w * (vl.width / isz.width), h * (vl.height / isz.height)⟩ ∧
    (vl.width = 2 * isz.width → vl.height = isz.height →
      mapCoordinates vl isz x y w h = ⟨2 * x, y, 2 * w, h⟩) := by
  refine ⟨rfl, fun h1 h2 => ?_⟩
  unfold mapCoordinates
  rw [h1, h2, Rect.mk.injEq]
  rw [mul_div_assoc, div_self (ne_of_gt hw), div_self (ne_of_gt hh)]
  refine ⟨by ring, by ring, by ring, by ring⟩

/-- C4 witness: at image size 50 by 80 and view 100 by 80, the rectangle
(3, 4, 5, 6) maps to (6, 4, 10, 6): the X axis doubles, the Y axis is
unchanged. -/
theorem mapCoordinates_independent_scales_witness :
    mapCoordinates ⟨100, 80⟩ ⟨50, 80⟩ 3 4 5 6 = ⟨2 * 3, 4, 2 * 5, 6⟩ :=
  (mapCoordinates_independent_scales ⟨100, 80⟩ ⟨50, 80⟩ 3 4 5 6
    (by norm_num) (by norm_num)).2 (by norm_num) rfl

/-- C5: a path string whose parsed point list has fewer than 2 points makes
the engine return without modifying the selection state: both the
highlighted element set and the selected text are left exactly as they
were. -/
theorem fewPoints_leaves_state_unchanged (vl : ViewLayout) (isz : ImageSize)
    (ocr : Option RecognitionResult) (s : String) (st : SelState)
    (h : (parseSvgPath s).length < 2) :
    findIntersectingBlocks vl isz ocr s st = st := by
  cases ocr with
  | none => rfl
  | some r =>
    unfold findIntersectingBlocks
    dsimp only
    rw [if_pos h]

/-- C5 witness: the one-point path M 1 2 leaves a nonempty prior selection
state untouched. -/
theorem fewPoints_leaves_state_unchanged_witness :
    findIntersectingBlocks ⟨10, 10⟩ ⟨10, 10⟩
      (some ⟨[⟨[⟨[⟨"Hello", some (frameLTWH 0 0 10 10)⟩]⟩]⟩]⟩) "M 1 2"
      ⟨[(1, 2, 3)], some "prior"⟩ = ⟨[(1, 2, 3)], some "prior"⟩ :=
  fewPoints_leaves_state_unchanged ⟨10, 10⟩ ⟨10, 10⟩
    (some ⟨[⟨[⟨[⟨"Hello", some (frameLTWH 0 0 10 10)⟩]⟩]⟩]⟩) "M 1 2"
    ⟨[(1, 2, 3)], some "prior"⟩ (by decide)

/-- C2: with a valid lasso (at least 2 parsed points), the selected triples
written to the state are exactly the traversal-order selection, they are
strictly ascending in (blockIndex, lineIndex, elementIndex) lexicographic
order — never gesture order — and whenever any selected word has nonempty
text, the stored selected text is those words' texts joined with single
spaces in that same traversal order. -/
theorem selectedText_follows_traversal_order (vl : ViewLayout) (isz : ImageSize)
    (r : RecognitionResult) (s : String) (st : SelState)
    (h2 : 2 ≤ (parseSvgPath s).length) :
    ((findIntersectingBlocks vl isz (some r) s st).intersectingElements =
      computeSelectedElements vl isz r (parseSvgPath s)) ∧
    ((findIntersectingBlocks vl isz (some r) s st).intersectingElements).Pairwise
      tripleLt ∧
    (((computeSelectedElements vl isz r (parseSvgPath s)).map
        (fun t => lookupElementText r t.1 t.2.1 t.2.2)).filter
        (fun t => decide (0 < t.length)) ≠ [] →
      (findIntersectingBlocks vl isz (some r) s st).selectedText =
        some (joinSpace (((computeSelectedElements vl isz r (parseSvgPath s)).map
          (fun t => lookupElementText r t.1 t.2.1 t.2.2)).filter
          (fun t => decide (0 < t.length))))) := by
  have helems :
      (findIntersectingBlocks vl isz (some r) s st).intersectingElements =
        computeSelectedElements vl isz r (parseSvgPath s) := by
    unfold findIntersectingBlocks
    dsimp only
    rw [if_neg (by omega)]
    split
    · split <;> rfl
    · rfl
  refine ⟨helems, helems ▸ pairwise_computeSelectedElements vl isz r _, ?_⟩
  intro htexts
  have hlen : 0 < (((computeSelectedElements vl isz r (parseSvgPath s)).map
      (fun t => lookupElementText r t.1 t.2.1 t.2.2)).filter
      (fun t => decide (0 < t.length))).length := List.length_pos.mpr htexts
  have helen : 0 < (computeSelectedElements vl isz r (parseSvgPath s)).length := by
    rcases Nat.eq_zero_or_pos (computeSelectedElements vl isz r (parseSvgPath s)).length
      with hz | hp
    · rw [List.length_eq_zero] at hz
      rw [hz] at htexts
      simp at htexts
    · exact hp
  unfold findIntersectingBlocks
  dsimp only
  rw [if_neg (by omega), if_pos helen, if_pos hlen]

/-- C2 witness: two words Hello and World in one line, fully covered by the
lasso M 0 0 L 3 2 at scale 1: both are selected, the stored triples are the
ascending pair (0,0,0), (0,0,1), and the stored text is Hello World. -/
theorem selectedText_follows_traversal_order_witness :
    (findIntersectingBlocks ⟨3, 2⟩ ⟨3, 2⟩
        (some ⟨[⟨[⟨[⟨"Hello", some (frameLTWH 0 0 1 2)⟩,
          ⟨"World", some (frameLTWH 2 0 1 2)⟩]⟩]⟩]⟩) "M 0 0 L 3 2"
        ⟨[], none⟩).intersectingElements = [(0, 0, 0), (0, 0, 1)] ∧
    (findIntersectingBlocks ⟨3, 2⟩ ⟨3, 2⟩
        (some ⟨[⟨[⟨[⟨"Hello", some (frameLTWH 0 0 1 2)⟩,
          ⟨"World", some (frameLTWH 2 0 1 2)⟩]⟩]⟩]⟩) "M 0 0 L 3 2"
        ⟨[], none⟩).selectedText = some "Hello World" := by
  have h := selectedText_follows_traversal_order ⟨3, 2⟩ ⟨3, 2⟩
    ⟨[⟨[⟨[⟨"Hello", some (frameLTWH 0 0 1 2)⟩,
      ⟨"World", some (frameLTWH 2 0 1 2)⟩]⟩]⟩]⟩ "M 0 0 L 3 2" ⟨[], none⟩
    (by decide)
  refine ⟨h.1.trans (by with_unfolding_all decide), ?_⟩
  refine (h.2.2 (by with_unfolding_all decide)).trans ?_
  with_unfolding_all decide

/-- C6: with a valid lasso, a run in which zero words meet the threshold
leaves the selected text exactly as it was (never setting it to the empty
string), and more generally the engine can only ever produce an empty
selected text when the state already held one: no run sets the empty
string. -/
theorem emptySelection_leaves_text_unset (vl : ViewLayout) (isz : ImageSize)
    (r : RecognitionResult) (s : String) (st : SelState)
    (h2 : 2 ≤ (parseSvgPath s).length) :
    (computeSelectedElements vl isz r (parseSvgPath s) = [] →
      (findIntersectingBlocks vl isz (some r) s st).selectedText =
        st.selectedText) ∧
    ((findIntersectingBlocks vl isz (some r) s st).selectedText = some "" →
      st.selectedText = some "") := by
  constructor
  · intro hempty
    unfold findIntersectingBlocks
    dsimp only
    rw [if_neg (by omega), hempty]
    rfl
  · intro hres
    by_cases helen : 0 < (computeSelectedElements vl isz r (parseSvgPath s)).length
    · by_cases hlen : 0 < (((computeSelectedElements vl isz r (parseSvgPath s)).map
          (fun t => lookupElementText r t.1 t.2.1 t.2.2)).filter
          (fun t => decide (0 < t.length))).length
      · exfalso
        unfold findIntersectingBlocks at hres
        dsimp only at hres
        rw [if_neg (by omega), if_pos helen, if_pos hlen] at hres
        simp only [Option.some.injEq] at hres
        have hpos : 0 < (joinSpace (((computeSelectedElements vl isz r
            (parseSvgPath s)).map (fun t => lookupElementText r t.1 t.2.1 t.2.2)).filter
            (fun t => decide (0 < t.length)))).length := by
          refine joinSpace_length_pos _ (by
            intro hnil
            rw [hnil] at hlen
            simp at hlen) ?_
          intro t ht
          have := List.of_mem_filter ht
          simpa using this
        rw [hres] at hpos
        simp at hpos
      · unfold findIntersectingBlocks at hres
        dsimp only at hres
        rw [if_neg (by omega), if_pos helen, if_neg hlen] at hres
        exact hres
    · unfold findIntersectingBlocks at hres
      dsimp only at hres
      rw [if_neg (by omega), if_neg helen] at hres
      exact hres

/-- C6 witness: a word far from the lasso box is not selected, and the
previously stored text keep survives the run unchanged. -/
theorem emptySelection_leaves_text_unset_witness :
    (findIntersectingBlocks ⟨100, 100⟩ ⟨100, 100⟩
      (some ⟨[⟨[⟨[⟨"Hello", some (frameLTWH 50 50 10 10)⟩]⟩]⟩]⟩) "M 0 0 L 1 1"
      ⟨[], some "keep"⟩).selectedText = some "keep" :=
  (emptySelection_leaves_text_unset ⟨100, 100⟩ ⟨100, 100⟩
    ⟨[⟨[⟨[⟨"Hello", some (frameLTWH 50 50 10 10)⟩]⟩]⟩]⟩ "M 0 0 L 1 1"
    ⟨[], some "keep"⟩ (by decide)).1 (by with_unfolding_all decide)

/-- C3 counterexample: the rectangle with left -5, top 0, width 5, height 10
has right = left + width = 0 and bottom = 10; the left/top/width/height
encoding normalizes to width 5 but the left/top/right/bottom encoding of the
same rectangle normalizes to width 0, because the code's
`frame.right ? frame.right - x : 0` fallback treats a right edge of exactly
0 as falsy. So the two encodings of one rectangle do not always resolve to
the same canonical values. -/
theorem frameEncoding_zeroRight_counterexample :
    normalizeFrame (frameLTWH (-5) 0 5 10) ≠
      normalizeFrame (frameLTRB (-5) 0 ((-5) + 5) (0 + 10)) := by
  with_unfolding_all decide

/-- C3 amended: the two encodings of one rectangle resolve to the same
canonical x, y, width, height — and hence the same mapped box and the same
selection decision — provided right = left + width is nonzero or the width
is zero, and bottom = top + height is nonzero or the height is zero (both
hold for every frame with nonnegative left/top and nonnegative extent
except the degenerate right-edge-0 / bottom-edge-0 cases excluded by the
counterexample). -/
theorem frameEncodings_agree_of_nonzero_edges (l t w h : ℚ)
    (hx : l + w ≠ 0 ∨ w = 0) (hy : t + h ≠ 0 ∨ h = 0) :
    normalizeFrame (frameLTWH l t w h) =
      normalizeFrame (frameLTRB l t (l + w) (t + h)) ∧
    (∀ vl isz, mappedRectOf vl isz (frameLTWH l t w h) =
      mappedRectOf vl isz (frameLTRB l t (l + w) (t + h))) ∧
    (∀ vl isz pts txt,
      elementSelected vl isz pts ⟨txt, some (frameLTWH l t w h)⟩ =
        elementSelected vl isz pts ⟨txt, some (frameLTRB l t (l + w) (t + h))⟩) := by
  have key : normalizeFrame (frameLTWH l t w h) =
      normalizeFrame (frameLTRB l t (l + w) (t + h)) := by
    unfold normalizeFrame frameLTWH frameLTRB jsNumOr jsEdgeMinus
    dsimp only
    rw [Rect.mk.injEq]
    refine ⟨rfl, rfl, ?_, ?_⟩
    · rcases hx with hx | hx <;> split_ifs <;> first | rfl | linarith
    · rcases hy with hy | hy <;> split_ifs <;> first | rfl | linarith
  have hmap : ∀ vl isz, mappedRectOf vl isz (frameLTWH l t w h) =
      mappedRectOf vl isz (frameLTRB l t (l + w) (t + h)) := by
    intro vl isz
    unfold mappedRectOf
    rw [key]
  refine ⟨key, hmap, fun vl isz pts txt => ?_⟩
  unfold elementSelected
  dsimp only
  rw [hmap]

/-- C3 amended witness: the rectangle with left 0, top 0, width 5, height 10
(right 5, bottom 10) normalizes identically under both encodings. -/
theorem frameEncodings_agree_of_nonzero_edges_witness :
    normalizeFrame (frameLTWH 0 0 5 10) =
      normalizeFrame (frameLTRB 0 0 (0 + 5) (0 + 10)) :=
  (frameEncodings_agree_of_nonzero_edges 0 0 5 10 (Or.inl (by norm_num))
    (Or.inl (by norm_num))).1

/-- C7: assuming at most one stored lasso path per page, finalizing a stroke
replaces exactly the current page's path — the filtered view of every other
page is unchanged, the current page afterwards holds exactly the new path —
and clearing the current page's drawing removes only the current page's
path; both operations preserve the at-most-one-per-page invariant. -/
theorem lassoPaths_per_page_invariant (en dr : Bool) (cp : String) (pg : ℕ)
    (ps : List DrawPath) (hinv : atMostOnePathPerPage ps) :
    atMostOnePathPerPage (handleTouchEndPaths en dr cp pg ps) ∧
    (∀ q, q ≠ pg → (handleTouchEndPaths en dr cp pg ps).filter
      (fun p => p.page == q) = ps.filter (fun p => p.page == q)) ∧
    (en = true → dr = true → cp ≠ "" →
      (handleTouchEndPaths en dr cp pg ps).filter (fun p => p.page == pg) =
        [⟨cp, pg⟩]) ∧
    atMostOnePathPerPage (clearCurrentDrawingPaths pg ps) ∧
    (∀ q, q ≠ pg → (clearCurrentDrawingPaths pg ps).filter
      (fun p => p.page == q) = ps.filter (fun p => p.page == q)) := by
  have hother : ∀ q, q ≠ pg →
      (ps.filter (fun p => p.page != pg)).filter (fun p => p.page == q) =
        ps.filter (fun p => p.page == q) := by
    intro q hq
    rw [List.filter_filter]
    refine List.filter_congr ?_
    intro p _
    cases hpq : (p.page == q) with
    | true =>
      have : p.page = q := by simpa using hpq
      simp [this, hq]
    | false => simp
  have hcur : (ps.filter (fun p => p.page != pg)).filter
      (fun p => p.page == pg) = [] := by
    rw [List.filter_filter]
    have : ∀ p ∈ ps, ((p.page == pg) && (p.page != pg)) = false := by
      intro p _
      cases hpq : (p.page == pg) with
      | true =>
        have : p.page = pg := by simpa using hpq
        simp [this]
      | false => simp
    rw [List.filter_congr this]
    simp
  constructor
  · intro q
    unfold handleTouchEndPaths
    split
    · rw [List.filter_append]
      by_cases hq : q = pg
      · subst hq
        rw [hcur]
        simp
      · rw [hother q hq]
        have h1 := hinv q
        have h2 : (([⟨cp, pg⟩] : List DrawPath).filter
            (fun p => p.page == q)) = [] := by
          simp [List.filter_cons, show pg ≠ q from fun hpq => hq hpq.symm]
        rw [h2, List.append_nil]
        exact h1
    · exact hinv q
  refine ⟨?_, ?_, ?_, ?_⟩
  · intro q hq
    unfold handleTouchEndPaths
    split
    · rw [List.filter_append, hother q hq]
      have : (([⟨cp, pg⟩] : List DrawPath).filter (fun p => p.page == q)) = [] := by
        simp [hq, Ne.symm hq]
      rw [this, List.append_nil]
    · rfl
  · intro hen hdr hcp
    unfold handleTouchEndPaths
    rw [if_pos (by simp [hen, hdr, hcp])]
    rw [List.filter_append, hcur]
    simp
  · intro q
    unfold clearCurrentDrawingPaths
    by_cases hq : q = pg
    · subst hq
      rw [hcur]
      simp
    · rw [hother q hq]
      exact hinv q
  · intro q hq
    unfold clearCurrentDrawingPaths
    exact hother q hq

/-- C7 witness: with one path stored on page 1, finalizing a stroke on
page 2 leaves page 1's path untouched and stores exactly the new path on
page 2, and clearing page 2 leaves page 1's path untouched. -/
theorem lassoPaths_per_page_invariant_witness :
    (handleTouchEndPaths true true "M 2 2 L 3 3" 2 [⟨"M 0 0 L 1 1", 1⟩]).filter
      (fun p => p.page == 1) = [⟨"M 0 0 L 1 1", 1⟩] ∧
    (handleTouchEndPaths true true "M 2 2 L 3 3" 2 [⟨"M 0 0 L 1 1", 1⟩]).filter
      (fun p => p.page == 2) = [⟨"M 2 2 L 3 3", 2⟩] ∧
    (clearCurrentDrawingPaths 2 [⟨"M 0 0 L 1 1", 1⟩]).filter
      (fun p => p.page == 1) = [⟨"M 0 0 L 1 1", 1⟩] := by
  have hinv : atMostOnePathPerPage [⟨"M 0 0 L 1 1", 1⟩] :=
    fun q => le_trans (List.length_filter_le _ _) (by simp)
  have h := lassoPaths_per_page_invariant true true "M 2 2 L 3 3" 2
    [⟨"M 0 0 L 1 1", 1⟩] hinv
  refine ⟨(h.2.1 1 (by decide)).trans (by decide),
    h.2.2.1 rfl rfl (by decide), (h.2.2.2.2 1 (by decide)).trans (by decide)⟩

/-- C8: a request to start analysis while a cycle is running (isProcessing)
is rejected as a no-op, not queued; a request for a page already marked
analyzed, when re-analysis is not forced (drawing mode off), is likewise a
no-op; and a cycle can only start from a non-processing state, immediately
marking itself in flight — so two analysis cycles are never in flight at
once. -/
theorem performOCR_entry_guards (st : OCRGuardState) :
    (st.isProcessing = true → performOCR st = none) ∧
    (st.analyzedPages.contains st.currentPage = true →
      st.isDrawingEnabled = false → performOCR st = none) ∧
    (∀ st' : OCRGuardState, performOCR st = some st' →
      st.isProcessing = false ∧ st'.isProcessing = true) := by
  refine ⟨?_, ?_, ?_⟩
  · intro hp
    unfold performOCR
    rw [hp]
    split
    · rfl
    · simp
  · intro ha hd
    unfold performOCR
    rw [if_pos (by rw [ha, hd]; rfl)]
  · intro st' hsome
    unfold performOCR at hsome
    split at hsome
    · exact absurd hsome (by simp)
    · by_cases hp : st.isProcessing
      · rw [if_pos hp] at hsome
        exact absurd hsome (by simp)
      · rw [if_neg hp] at hsome
        simp only [Option.some.injEq] at hsome
        refine ⟨by simpa using hp, ?_⟩
        rw [← hsome]

/-- C8 witness: a busy controller rejects a new request, and an
already-analyzed page with drawing mode off rejects a new request. -/
theorem performOCR_entry_guards_witness :
    performOCR ⟨[], true, true, 1⟩ = none ∧
    performOCR ⟨[1], false, false, 1⟩ = none :=
  ⟨(performOCR_entry_guards ⟨[], true, true, 1⟩).1 rfl,
    (performOCR_entry_guards ⟨[1], false, false, 1⟩).2.1 (by decide) rfl⟩

/-- C9: with a persisted document path and a persisted (nonempty, parseable)
page string, startup restoration applies if and only if the persisted path
exactly equals the path being opened: on a match both the current and
initial page become the parsed stored page; on a mismatch the state (page
1 at startup) is untouched. -/
theorem pageRestore_requires_matching_path (storedPath lv pdfPath : String)
    (n : ℤ) (st : PageRestoreState) (hlv : lv ≠ "")
    (hn : parseIntJS lv = some n) :
    (storedPath = pdfPath →
      loadLastViewedPage (some storedPath) (some lv) pdfPath st =
        ⟨some n, some n⟩) ∧
    (storedPath ≠ pdfPath →
      loadLastViewedPage (some storedPath) (some lv) pdfPath st = st) := by
  constructor
  · intro heq
    unfold loadLastViewedPage
    dsimp only
    rw [if_pos ⟨heq, hlv⟩, hn]
  · intro hne
    unfold loadLastViewedPage
    dsimp only
    rw [if_neg (fun hc => hne hc.1)]

/-- C9 witness: with persisted path /a.pdf and page 5, opening /a.pdf
restores current and initial page to 5, while opening /b.pdf leaves the
startup state at page 1. -/
theorem pageRestore_requires_matching_path_witness :
    loadLastViewedPage (some "/a.pdf") (some "5") "/a.pdf" ⟨some 1, some 1⟩ =
      ⟨some 5, some 5⟩ ∧
    loadLastViewedPage (some "/a.pdf") (some "5") "/b.pdf" ⟨some 1, some 1⟩ =
      ⟨some 1, some 1⟩ :=
  ⟨(pageRestore_requires_matching_path "/a.pdf" "5" "/a.pdf" 5 ⟨some 1, some 1⟩
      (by decide) (by with_unfolding_all decide)).1 rfl,
    (pageRestore_requires_matching_path "/a.pdf" "5" "/b.pdf" 5 ⟨some 1, some 1⟩
      (by decide) (by with_unfolding_all decide)).2 (by decide)⟩

/-- C10: a word whose mapped frame has zero width or zero height is never
selected, for any lasso: in the degenerate case the code's overlap value is
exactly 0 (the division never contributes, since the intersection strip
already has zero extent), which cannot reach the 40 threshold. -/
theorem zero_area_word_never_selected (vl : ViewLayout) (isz : ImageSize)
    (pts : List Point) (el : TextElement) (f : Frame) (hf : el.frame = some f)
    (hz : (mappedRectOf vl isz f).width = 0 ∨ (mappedRectOf vl isz f).height = 0) :
    calculateOverlapArea (cornerPoints (mappedRectOf vl isz f)) pts = 0 ∧
    elementSelected vl isz pts el = false := by
  set m := mappedRectOf vl isz f with hm
  have hzero : calculateOverlapArea (cornerPoints m) pts = 0 := by
    rw [calculateOverlapArea_corners]
    unfold specOverlapPercentage
    split
    · rfl
    · rename_i hnd
      unfold boxesDisjoint at hnd
      rw [not_or, not_lt, not_lt] at hnd
      obtain ⟨hx1, hy1⟩ := hnd
      unfold specWordBox lassoBoundingBox at hx1 hy1 ⊢
      dsimp only at hx1 hy1 ⊢
      rcases hz with hz | hz
      · have hxe : m.x + m.width = m.x := by rw [hz]; ring
        have h1 : min (listMax (pts.map Point.x)) (max m.x (m.x + m.width)) ≤ m.x := by
          rw [hxe, max_self]
          exact min_le_right _ _
        have h2 : m.x ≤ max (listMin (pts.map Point.x)) (min m.x (m.x + m.width)) := by
          rw [hxe, min_self]
          exact le_max_right _ _
        have : min (listMax (pts.map Point.x)) (max m.x (m.x + m.width)) =
            max (listMin (pts.map Point.x)) (min m.x (m.x + m.width)) :=
          le_antisymm (le_trans h1 h2) hx1
        rw [this]
        ring
      · have hye : m.y + m.height = m.y := by rw [hz]; ring
        have h1 : min (listMax (pts.map Point.y)) (max m.y (m.y + m.height)) ≤ m.y := by
          rw [hye, max_self]
          exact min_le_right _ _
        have h2 : m.y ≤ max (listMin (pts.map Point.y)) (min m.y (m.y + m.height)) := by
          rw [hye, min_self]
          exact le_max_right _ _
        have : min (listMax (pts.map Point.y)) (max m.y (m.y + m.height)) =
            max (listMin (pts.map Point.y)) (min m.y (m.y + m.height)) :=
          le_antisymm (le_trans h1 h2) hy1
        rw [this]
        ring
  refine ⟨hzero, ?_⟩
  unfold elementSelected
  rw [hf]
  dsimp only
  rw [← hm, hzero]
  simp [OVERLAP_THRESHOLD]

/-- C10 witness: a zero-width word (width 0, height 5) is not selected even
by a lasso box that covers it. -/
theorem zero_area_word_never_selected_witness :
    elementSelected ⟨10, 10⟩ ⟨10, 10⟩ [⟨0, 0⟩, ⟨10, 10⟩]
      ⟨"Hello", some (frameLTWH 2 2 0 5)⟩ = false :=
  (zero_area_word_never_selected ⟨10, 10⟩ ⟨10, 10⟩ [⟨0, 0⟩, ⟨10, 10⟩]
    ⟨"Hello", some (frameLTWH 2 2 0 5)⟩ (frameLTWH 2 2 0 5) rfl
    (Or.inl (by with_unfolding_all decide))).2
